import Mathlib

/-!
Shallow embedding of `src/02_financial_ratio_analysis.py`
(class `FinancialRatioAnalyzer`, House of Fraser Financial Analytics).

Float values are modelled as exact rationals extended with the IEEE special
values `inf`, `neginf` and `nan` that numpy/pandas division produces
(`x / 0 = ±inf` for `x ≠ 0`, `0 / 0 = nan`; any operation on `nan` is `nan`).
Positional index alignment of pandas Series of different lengths is modelled by
padding the shorter series with `nan` (a missing index position behaves as a
missing value, and every arithmetic operation maps missing to `nan`).
-/

/-- A pandas float cell: a finite rational, `±inf`, or `nan`. -/
inductive Val where
  | num (q : ℚ)
  | inf
  | neginf
  | nan
deriving DecidableEq, Repr

/-- `nan` test (`pandas.isna` on a float cell). -/
def Val.isNan : Val → Bool
  | .nan => true
  | _ => false

/-- IEEE subtraction on cells (signed zero dropped: inputs come from literals). -/
def Val.sub : Val → Val → Val
  | .nan, _ => .nan
  | _, .nan => .nan
  | .num a, .num b => .num (a - b)
  | .num _, .inf => .neginf
  | .num _, .neginf => .inf
  | .inf, .num _ => .inf
  | .neginf, .num _ => .neginf
  | .inf, .inf => .nan
  | .inf, .neginf => .inf
  | .neginf, .inf => .neginf
  | .neginf, .neginf => .nan

/-- IEEE multiplication on cells. -/
def Val.mul : Val → Val → Val
  | .nan, _ => .nan
  | _, .nan => .nan
  | .num a, .num b => .num (a * b)
  | .num a, .inf => if 0 < a then .inf else if a < 0 then .neginf else .nan
  | .num a, .neginf => if 0 < a then .neginf else if a < 0 then .inf else .nan
  | .inf, .num b => if 0 < b then .inf else if b < 0 then .neginf else .nan
  | .neginf, .num b => if 0 < b then .neginf else if b < 0 then .inf else .nan
  | .inf, .inf => .inf
  | .inf, .neginf => .neginf
  | .neginf, .inf => .neginf
  | .neginf, .neginf => .inf

/-- IEEE division on cells: division by zero yields `±inf` for a nonzero
numerator and `nan` for `0 / 0`, exactly as numpy computes it (with the
source's `warnings.filterwarnings` the warning is suppressed, not raised). -/
def Val.div : Val → Val → Val
  | .nan, _ => .nan
  | _, .nan => .nan
  | .num a, .num b =>
      if b = 0 then (if 0 < a then .inf else if a < 0 then .neginf else .nan)
      else .num (a / b)
  | .num _, .inf => .num 0
  | .num _, .neginf => .num 0
  | .inf, .num b => if 0 ≤ b then .inf else .neginf
  | .neginf, .num b => if 0 ≤ b then .neginf else .inf
  | .inf, .inf => .nan
  | .inf, .neginf => .nan
  | .neginf, .inf => .nan
  | .neginf, .neginf => .nan

/-- IEEE absolute value on cells. -/
def Val.abs : Val → Val
  | .num a => .num |a|
  | .inf => .inf
  | .neginf => .inf
  | .nan => .nan

/-- IEEE strict `<` on cells: every comparison with `nan` is `false`. -/
def Val.lt : Val → Val → Bool
  | .nan, _ => false
  | _, .nan => false
  | .num a, .num b => decide (a < b)
  | .num _, .inf => true
  | .num _, .neginf => false
  | .inf, _ => false
  | .neginf, .neginf => false
  | .neginf, .num _ => true
  | .neginf, .inf => true

/-- Lift a column of finite literals to cells. -/
def qcol (xs : List ℚ) : List Val := xs.map Val.num

/-- Index-aligned binary operation on two Series: the result ranges over the
union of the two index ranges, and a position missing from one side behaves as
a missing value (`nan`), which every arithmetic operation propagates. -/
def alignBin (f : Val → Val → Val) (xs ys : List Val) : List Val :=
  (List.range (max xs.length ys.length)).map fun i =>
    f (xs.getD i Val.nan) (ys.getD i Val.nan)

/-- Elementwise division of two literal columns (pandas Series `/`). -/
def colDiv (xs ys : List ℚ) : List Val := alignBin Val.div (qcol xs) (qcol ys)

/-- Elementwise subtraction of two literal columns (pandas Series `-`). -/
def colSub (xs ys : List ℚ) : List Val := alignBin Val.sub (qcol xs) (qcol ys)

/-- Multiply every cell of a Series by 100 (the `* 100` on a ratio column). -/
def scale100 (xs : List Val) : List Val := xs.map fun v => Val.mul v (Val.num 100)

/-- `Series.dropna`. -/
def dropna (xs : List Val) : List Val := xs.filter fun v => !v.isNan

/-- Forward fill (`fillna(method: pad)`): each `nan` is replaced by the most
recent earlier non-`nan` value, leading `nan`s are kept. -/
def ffillFrom (prev : Val) : List Val → List Val
  | [] => []
  | v :: rest =>
      let w := if v.isNan then prev else v
      w :: ffillFrom w rest

/-- `Series.ffill`. -/
def ffill (xs : List Val) : List Val := ffillFrom Val.nan xs

/-- `Series.pct_change()`: pad-fill, then `filled / filled.shift(1) - 1`;
the first position divides by the `nan` that `shift` introduces. -/
def pct_change (xs : List Val) : List Val :=
  let filled := ffill xs
  (List.range filled.length).map fun i =>
    Val.sub (Val.div (filled.getD i Val.nan)
                     (if i = 0 then Val.nan else filled.getD (i - 1) Val.nan))
            (Val.num 1)

/-- The income-statement table (columns used by the analyzer). -/
structure IncomeStatement where
  Year : List ℤ
  Revenue : List ℚ
  COGS : List ℚ
  Gross_Profit : List ℚ
  Operating_Expenses : List ℚ
  EBIT : List ℚ
  Interest_Expense : List ℚ
  Net_Income : List ℚ
deriving DecidableEq, Repr

/-- The balance-sheet table. -/
structure BalanceSheet where
  Year : List ℤ
  Total_Assets : List ℚ
  Current_Assets : List ℚ
  Fixed_Assets : List ℚ
  Total_Liabilities : List ℚ
  Current_Liabilities : List ℚ
  Long_Term_Debt : List ℚ
  Shareholders_Equity : List ℚ
deriving DecidableEq, Repr

/-- A derived ratio table: the integer `Year` column plus named float columns. -/
structure RatioTable where
  Year : List ℤ
  cols : List (String × List Val)
deriving DecidableEq, Repr

/-- The analyzer object: the two input tables and the `self.ratios` dict
(an insertion-ordered map from category name to table). -/
structure FinancialRatioAnalyzer where
  income : IncomeStatement
  balance : BalanceSheet
  ratios : List (String × RatioTable)
deriving DecidableEq, Repr

/-- `__init__`: stores the two tables as given and starts with an empty
`self.ratios`; no validation of any kind is performed. -/
def FinancialRatioAnalyzer.init (income_statement : IncomeStatement)
    (balance_sheet : BalanceSheet) : FinancialRatioAnalyzer :=
  { income := income_statement, balance := balance_sheet, ratios := [] }

/-- `self.ratios[key] = value`: overwrite in place if the key exists
(Python dicts keep insertion order), else append. -/
def setRatio (rs : List (String × RatioTable)) (k : String) (v : RatioTable) :
    List (String × RatioTable) :=
  if rs.any (fun p => p.1 = k) then
    rs.map fun p => if p.1 = k then (k, v) else p
  else rs ++ [(k, v)]

/-- `calculate_profitability_ratios`. -/
def calculate_profitability_ratios (self : FinancialRatioAnalyzer) :
    FinancialRatioAnalyzer × RatioTable :=
  let profitability : RatioTable :=
    { Year := self.income.Year
      cols :=
        [("Gross_Margin_%", scale100 (colDiv self.income.Gross_Profit self.income.Revenue)),
         ("EBIT_Margin_%", scale100 (colDiv self.income.EBIT self.income.Revenue)),
         ("Net_Margin_%", scale100 (colDiv self.income.Net_Income self.income.Revenue)),
         ("ROA_%", scale100 (colDiv self.income.Net_Income self.balance.Total_Assets)),
         ("ROE_%", scale100 (colDiv self.income.Net_Income self.balance.Shareholders_Equity))] }
  ({ self with ratios := setRatio self.ratios "profitability" profitability }, profitability)

/-- `calculate_liquidity_ratios`. -/
def calculate_liquidity_ratios (self : FinancialRatioAnalyzer) :
    FinancialRatioAnalyzer × RatioTable :=
  let wc := colSub self.balance.Current_Assets self.balance.Current_Liabilities
  let liquidity : RatioTable :=
    { Year := self.balance.Year
      cols :=
        [("Current_Ratio", colDiv self.balance.Current_Assets self.balance.Current_Liabilities),
         ("Working_Capital", wc),
         ("WC_to_Revenue_%", scale100 (alignBin Val.div wc (qcol self.income.Revenue)))] }
  ({ self with ratios := setRatio self.ratios "liquidity" liquidity }, liquidity)

/-- `calculate_leverage_ratios`. -/
def calculate_leverage_ratios (self : FinancialRatioAnalyzer) :
    FinancialRatioAnalyzer × RatioTable :=
  let leverage : RatioTable :=
    { Year := self.balance.Year
      cols :=
        [("Debt_to_Equity", colDiv self.balance.Long_Term_Debt self.balance.Shareholders_Equity),
         ("Debt_to_Assets", colDiv self.balance.Long_Term_Debt self.balance.Total_Assets),
         ("Equity_Multiplier", colDiv self.balance.Total_Assets self.balance.Shareholders_Equity),
         ("Interest_Coverage", colDiv self.income.EBIT self.income.Interest_Expense)] }
  ({ self with ratios := setRatio self.ratios "leverage" leverage }, leverage)

/-- `calculate_efficiency_ratios`. -/
def calculate_efficiency_ratios (self : FinancialRatioAnalyzer) :
    FinancialRatioAnalyzer × RatioTable :=
  let asset_turnover := colDiv self.income.Revenue self.balance.Total_Assets
  let efficiency : RatioTable :=
    { Year := self.income.Year
      cols :=
        [("Asset_Turnover", asset_turnover),
         ("Fixed_Asset_Turnover", colDiv self.income.Revenue self.balance.Fixed_Assets),
         ("Asset_Turnover_Change_%", scale100 (pct_change asset_turnover))] }
  ({ self with ratios := setRatio self.ratios "efficiency" efficiency }, efficiency)

/-- `analyze_dupont_model` (reads the inputs only; does not touch `self.ratios`). -/
def analyze_dupont_model (self : FinancialRatioAnalyzer) : RatioTable :=
  let net_margin := scale100 (colDiv self.income.Net_Income self.income.Revenue)
  let asset_turnover := colDiv self.income.Revenue self.balance.Total_Assets
  let equity_multiplier := colDiv self.balance.Total_Assets self.balance.Shareholders_Equity
  let roe_calculated :=
    scale100 (alignBin Val.mul
      (alignBin Val.mul (net_margin.map fun v => Val.div v (Val.num 100)) asset_turnover)
      equity_multiplier)
  { Year := self.income.Year
    cols :=
      [("Net_Margin_%", net_margin),
       ("Asset_Turnover", asset_turnover),
       ("Equity_Multiplier", equity_multiplier),
       ("ROE_Calculated_%", roe_calculated),
       ("ROE_Actual_%", scale100 (colDiv self.income.Net_Income self.balance.Shareholders_Equity))] }

/-- The three trend buckets. -/
inductive TrendClass where
  | improving
  | declining
  | stable
deriving DecidableEq, Repr

/-- The loop body of `identify_ratio_trends` for one column: drop missing
values; with at most one value left the column is skipped; otherwise
`trend = (last - first) / abs(first)` when `first != 0` else `0`,
classified against the fixed `±0.1` band. -/
def classifySeries (vals : List Val) : Option TrendClass :=
  let values := dropna vals
  if 1 < values.length then
    let first := values.headD Val.nan
    let lastv := values.getLastD Val.nan
    let trend : Val :=
      if first ≠ Val.num 0 then Val.div (Val.sub lastv first) (Val.abs first) else Val.num 0
    some (if Val.lt (Val.num (1/10)) trend then TrendClass.improving
          else if Val.lt trend (Val.num (-(1/10))) then TrendClass.declining
          else TrendClass.stable)
  else none

/-- The classified label list of `identify_ratio_trends`: every stored table,
every (always-numeric) non-`Year` column, in iteration order. -/
def classifyAll (rs : List (String × RatioTable)) : List (String × TrendClass) :=
  rs.flatMap fun ct =>
    ct.2.cols.filterMap fun cv =>
      (classifySeries cv.2).map fun c => (ct.1 ++ "." ++ cv.1, c)

/-- `identify_ratio_trends`: the single pass appends each classified label to
the bucket of its class, so each bucket is the subsequence of labels with that
class, in iteration order. Returns (improving, declining, stable). -/
def identify_ratio_trends (self : FinancialRatioAnalyzer) :
    List String × List String × List String :=
  let classified := classifyAll self.ratios
  (classified.filterMap fun lc => if lc.2 = TrendClass.improving then some lc.1 else none,
   classified.filterMap fun lc => if lc.2 = TrendClass.declining then some lc.1 else none,
   classified.filterMap fun lc => if lc.2 = TrendClass.stable then some lc.1 else none)

/-- `generate_ratio_summary`: reads six fixed columns from `self.ratios`;
a missing category or column is a `KeyError` (`none`). -/
def generate_ratio_summary (self : FinancialRatioAnalyzer) : Option RatioTable :=
  match self.ratios.lookup "profitability", self.ratios.lookup "liquidity",
        self.ratios.lookup "leverage", self.ratios.lookup "efficiency" with
  | some prof, some liq, some lev, some eff =>
      match prof.cols.lookup "Gross_Margin_%", prof.cols.lookup "EBIT_Margin_%",
            prof.cols.lookup "ROE_%", liq.cols.lookup "Current_Ratio",
            lev.cols.lookup "Debt_to_Equity", eff.cols.lookup "Asset_Turnover" with
      | some gm, some em, some roe, some cr, some dte, some at_ =>
          some { Year := self.income.Year
                 cols := [("Gross_Margin_%", gm), ("EBIT_Margin_%", em), ("ROE_%", roe),
                          ("Current_Ratio", cr), ("Debt_to_Equity", dte),
                          ("Asset_Turnover", at_)] }
      | _, _, _, _, _, _ => none
  | _, _, _, _ => none

/-- A column of the benchmark table: numeric differences or Above/Below labels. -/
inductive BenchCol where
  | nums (xs : List Val)
  | labels (xs : List String)
deriving DecidableEq, Repr

/-- The benchmark-comparison table. -/
structure BenchmarkTable where
  Year : List ℤ
  cols : List (String × BenchCol)
deriving DecidableEq, Repr

/-- The hardcoded default UK-retail benchmarks. -/
def defaultIndustryBenchmarks : List (String × ℚ) :=
  [("Gross_Margin_%", 35), ("EBIT_Margin_%", 5), ("ROE_%", 12),
   ("Current_Ratio", 3/2), ("Debt_to_Equity", 1), ("Asset_Turnover", 6/5)]

/-- `benchmark_against_industry`: an empty mapping is replaced by the default
benchmarks; for each benchmark key present in the summary, a difference column
`actual - benchmark` and a label column (`Above` iff the difference is
strictly positive) are appended. -/
def benchmark_against_industry (self : FinancialRatioAnalyzer)
    (industry_benchmarks : List (String × ℚ)) : Option BenchmarkTable :=
  let benchmarks :=
    if industry_benchmarks.isEmpty then defaultIndustryBenchmarks else industry_benchmarks
  (generate_ratio_summary self).map fun summary =>
    { Year := summary.Year
      cols := benchmarks.flatMap fun mb =>
        match summary.cols.lookup mb.1 with
        | some actual =>
            let diff := actual.map fun v => Val.sub v (Val.num mb.2)
            [(mb.1 ++ "_vs_Industry", BenchCol.nums diff),
             (mb.1 ++ "_Performance", BenchCol.labels (diff.map fun x =>
                if Val.lt (Val.num 0) x then "Above" else "Below"))]
        | none => [] }

/-- The sample income data of the module's demonstration entry point. -/
def income_data : IncomeStatement :=
  { Year := [2015, 2016, 2017, 2018]
    Revenue := [7849/10, 8266/10, 8363/10, 5731/10]
    COGS := [3247/10, 3424/10, 3532/10, 3489/10]
    Gross_Profit := [4602/10, 4842/10, 4831/10, 2242/10]
    Operating_Expenses := [4355/10, 4652/10, 4513/10, 4513/10]
    EBIT := [247/10, 19, 318/10, -(4/10)]
    Interest_Expense := [155/10, 185/10, 197/10, 198/10]
    Net_Income := [25/10, 184/10, 147/10, 22/10] }

/-- The sample balance-sheet data of the module's demonstration entry point. -/
def balance_data : BalanceSheet :=
  { Year := [2015, 2016, 2017, 2018]
    Total_Assets := [1250, 1320, 1290, 980]
    Current_Assets := [450, 480, 460, 320]
    Fixed_Assets := [800, 840, 830, 660]
    Total_Liabilities := [950, 1020, 1010, 820]
    Current_Liabilities := [380, 410, 395, 290]
    Long_Term_Debt := [570, 610, 615, 530]
    Shareholders_Equity := [300, 300, 280, 160] }

/-- The cell of a named column at row `i` of a ratio table. -/
def cell (t : RatioTable) (name : String) (i : ℕ) : Option Val :=
  (t.cols.lookup name).bind fun col : List Val => col[i]?

theorem getD_eq_of_getElem? (vs : List Val) (i : ℕ) (v : Val) (h : vs[i]? = some v) :
    vs.getD i Val.nan = v := by
  simp [List.getD_eq_getElem?_getD, h]

theorem alignBin_getElem? (f : Val → Val → Val) (xs ys : List Val) (i : ℕ)
    (hi : i < max xs.length ys.length) :
    (alignBin f xs ys)[i]? = some (f (xs.getD i Val.nan) (ys.getD i Val.nan)) := by
  simp [alignBin, List.getElem?_range, hi]

theorem qcol_getElem? (xs : List ℚ) (i : ℕ) : (qcol xs)[i]? = (xs[i]?).map Val.num := by
  simp [qcol]

theorem alignBin_getElem?_of (f : Val → Val → Val) (xs ys : List Val) (i : ℕ) (a b : Val)
    (ha : xs[i]? = some a) (hb : ys[i]? = some b) :
    (alignBin f xs ys)[i]? = some (f a b) := by
  have hx : i < xs.length := by
    by_contra h
    simp [List.getElem?_eq_none (by omega : xs.length ≤ i)] at ha
  rw [alignBin_getElem? f xs ys i (by omega)]
  rw [getD_eq_of_getElem? _ _ _ ha, getD_eq_of_getElem? _ _ _ hb]

theorem colDiv_getElem? (xs ys : List ℚ) (i : ℕ) (a b : ℚ)
    (ha : xs[i]? = some a) (hb : ys[i]? = some b) (hb0 : b ≠ 0) :
    (colDiv xs ys)[i]? = some (Val.num (a / b)) := by
  rw [colDiv, alignBin_getElem?_of _ _ _ _ (Val.num a) (Val.num b)
        (by simp [qcol_getElem?, ha]) (by simp [qcol_getElem?, hb])]
  simp [Val.div, hb0]

theorem scale100_getElem? (vs : List Val) (i : ℕ) :
    (scale100 vs)[i]? = (vs[i]?).map fun v => Val.mul v (Val.num 100) := by
  simp [scale100]

theorem scale100_colDiv_getElem? (xs ys : List ℚ) (i : ℕ) (a b : ℚ)
    (ha : xs[i]? = some a) (hb : ys[i]? = some b) (hb0 : b ≠ 0) :
    (scale100 (colDiv xs ys))[i]? = some (Val.num (a / b * 100)) := by
  rw [scale100_getElem?, colDiv_getElem? xs ys i a b ha hb hb0]
  simp [Val.mul]

/-- C1: for every year (row) whose Revenue, Total_Assets and
Shareholders_Equity are non-zero, `calculate_profitability_ratios` returns a
table whose row satisfies Gross_Margin_% = Gross_Profit/Revenue*100,
EBIT_Margin_% = EBIT/Revenue*100, Net_Margin_% = Net_Income/Revenue*100,
ROA_% = Net_Income/Total_Assets*100 and ROE_% = Net_Income/Shareholders_Equity*100. -/
theorem profitability_ratio_formulas (s : FinancialRatioAnalyzer) (i : ℕ)
    (rev gp ebit ni ta se : ℚ)
    (hrev : s.income.Revenue[i]? = some rev)
    (hgp : s.income.Gross_Profit[i]? = some gp)
    (hebit : s.income.EBIT[i]? = some ebit)
    (hni : s.income.Net_Income[i]? = some ni)
    (hta : s.balance.Total_Assets[i]? = some ta)
    (hse : s.balance.Shareholders_Equity[i]? = some se)
    (hrev0 : rev ≠ 0) (hta0 : ta ≠ 0) (hse0 : se ≠ 0) :
    cell (calculate_profitability_ratios s).2 "Gross_Margin_%" i =
      some (Val.num (gp / rev * 100)) ∧
    cell (calculate_profitability_ratios s).2 "EBIT_Margin_%" i =
      some (Val.num (ebit / rev * 100)) ∧
    cell (calculate_profitability_ratios s).2 "Net_Margin_%" i =
      some (Val.num (ni / rev * 100)) ∧
    cell (calculate_profitability_ratios s).2 "ROA_%" i =
      some (Val.num (ni / ta * 100)) ∧
    cell (calculate_profitability_ratios s).2 "ROE_%" i =
      some (Val.num (ni / se * 100)) := by
  have h1 : (calculate_profitability_ratios s).2.cols.lookup "Gross_Margin_%" =
      some (scale100 (colDiv s.income.Gross_Profit s.income.Revenue)) := rfl
  have h2 : (calculate_profitability_ratios s).2.cols.lookup "EBIT_Margin_%" =
      some (scale100 (colDiv s.income.EBIT s.income.Revenue)) := rfl
  have h3 : (calculate_profitability_ratios s).2.cols.lookup "Net_Margin_%" =
      some (scale100 (colDiv s.income.Net_Income s.income.Revenue)) := rfl
  have h4 : (calculate_profitability_ratios s).2.cols.lookup "ROA_%" =
      some (scale100 (colDiv s.income.Net_Income s.balance.Total_Assets)) := rfl
  have h5 : (calculate_profitability_ratios s).2.cols.lookup "ROE_%" =
      some (scale100 (colDiv s.income.Net_Income s.balance.Shareholders_Equity)) := rfl
  refine ⟨?_, ?_, ?_, ?_, ?_⟩ <;>
    simp [cell, h1, h2, h3, h4, h5,
      scale100_colDiv_getElem? _ _ i _ _ hgp hrev hrev0,
      scale100_colDiv_getElem? _ _ i _ _ hebit hrev hrev0,
      scale100_colDiv_getElem? _ _ i _ _ hni hrev hrev0,
      scale100_colDiv_getElem? _ _ i _ _ hni hta hta0,
      scale100_colDiv_getElem? _ _ i _ _ hni hse hse0]

/-- C1 witness: the sample 2015 row. -/
theorem profitability_ratio_formulas_witness :
    cell (calculate_profitability_ratios
        (FinancialRatioAnalyzer.init income_data balance_data)).2 "Gross_Margin_%" 0 =
      some (Val.num (4602/10 / (7849/10) * 100)) ∧
    cell (calculate_profitability_ratios
        (FinancialRatioAnalyzer.init income_data balance_data)).2 "ROE_%" 0 =
      some (Val.num (25/10 / 300 * 100)) := by
  have h := profitability_ratio_formulas
    (FinancialRatioAnalyzer.init income_data balance_data) 0
    (7849/10) (4602/10) (247/10) (25/10) 1250 300
    (by simp [FinancialRatioAnalyzer.init, income_data])
    (by simp [FinancialRatioAnalyzer.init, income_data])
    (by simp [FinancialRatioAnalyzer.init, income_data])
    (by simp [FinancialRatioAnalyzer.init, income_data])
    (by simp [FinancialRatioAnalyzer.init, balance_data])
    (by simp [FinancialRatioAnalyzer.init, balance_data])
    (by norm_num) (by norm_num) (by norm_num)
  exact ⟨h.1, h.2.2.2.2⟩

/-- C2: for every year with Revenue, Total_Assets and Shareholders_Equity
non-zero, the table returned by `analyze_dupont_model` satisfies
ROE_Calculated_% = ROE_Actual_%: the decomposition
(Net_Margin_%/100) * Asset_Turnover * Equity_Multiplier * 100 equals
Net_Income/Shareholders_Equity*100 exactly in the rational model
(the two are algebraically identical). -/
theorem dupont_identity (s : FinancialRatioAnalyzer) (i : ℕ) (rev ni ta se : ℚ)
    (hrev : s.income.Revenue[i]? = some rev)
    (hni : s.income.Net_Income[i]? = some ni)
    (hta : s.balance.Total_Assets[i]? = some ta)
    (hse : s.balance.Shareholders_Equity[i]? = some se)
    (hrev0 : rev ≠ 0) (hta0 : ta ≠ 0) (hse0 : se ≠ 0) :
    cell (analyze_dupont_model s) "ROE_Calculated_%" i =
      cell (analyze_dupont_model s) "ROE_Actual_%" i ∧
    cell (analyze_dupont_model s) "ROE_Actual_%" i =
      some (Val.num (ni / se * 100)) := by
  have hcalc : (analyze_dupont_model s).cols.lookup "ROE_Calculated_%" =
      some (scale100 (alignBin Val.mul
        (alignBin Val.mul
          ((scale100 (colDiv s.income.Net_Income s.income.Revenue)).map fun v =>
            Val.div v (Val.num 100))
          (colDiv s.income.Revenue s.balance.Total_Assets))
        (colDiv s.balance.Total_Assets s.balance.Shareholders_Equity))) := rfl
  have hact : (analyze_dupont_model s).cols.lookup "ROE_Actual_%" =
      some (scale100 (colDiv s.income.Net_Income s.balance.Shareholders_Equity)) := rfl
  have h1 : (scale100 (colDiv s.income.Net_Income s.income.Revenue))[i]? =
      some (Val.num (ni / rev * 100)) :=
    scale100_colDiv_getElem? _ _ _ _ _ hni hrev hrev0
  have h2 : ((scale100 (colDiv s.income.Net_Income s.income.Revenue)).map fun v =>
      Val.div v (Val.num 100))[i]? = some (Val.num (ni / rev * 100 / 100)) := by
    simp only [List.getElem?_map, h1]
    norm_num [Val.div]
  have h3 : (colDiv s.income.Revenue s.balance.Total_Assets)[i]? =
      some (Val.num (rev / ta)) := colDiv_getElem? _ _ _ _ _ hrev hta hta0
  have h4 : (alignBin Val.mul
      ((scale100 (colDiv s.income.Net_Income s.income.Revenue)).map fun v =>
        Val.div v (Val.num 100))
      (colDiv s.income.Revenue s.balance.Total_Assets))[i]? =
      some (Val.num (ni / rev * 100 / 100 * (rev / ta))) := by
    rw [alignBin_getElem?_of _ _ _ _ _ _ h2 h3]; rfl
  have h5 : (colDiv s.balance.Total_Assets s.balance.Shareholders_Equity)[i]? =
      some (Val.num (ta / se)) := colDiv_getElem? _ _ _ _ _ hta hse hse0
  have h6 : cell (analyze_dupont_model s) "ROE_Calculated_%" i =
      some (Val.num (ni / rev * 100 / 100 * (rev / ta) * (ta / se) * 100)) := by
    simp only [cell, hcalc, Option.some_bind, scale100_getElem?]
    rw [alignBin_getElem?_of _ _ _ _ _ _ h4 h5]
    rfl
  have h7 : cell (analyze_dupont_model s) "ROE_Actual_%" i =
      some (Val.num (ni / se * 100)) := by
    simp only [cell, hact, Option.some_bind]
    rw [scale100_colDiv_getElem? _ _ _ _ _ hni hse hse0]
  refine ⟨?_, h7⟩
  have key : ni / rev * 100 / 100 * (rev / ta) * (ta / se) * 100 = ni / se * 100 := by
    field_simp
    ring
  rw [h6, h7, key]

/-- C2 witness: the sample 2018 row (Net_Income 2.2, Shareholders_Equity 160). -/
theorem dupont_identity_witness :
    cell (analyze_dupont_model (FinancialRatioAnalyzer.init income_data balance_data))
        "ROE_Calculated_%" 3 =
      cell (analyze_dupont_model (FinancialRatioAnalyzer.init income_data balance_data))
        "ROE_Actual_%" 3 ∧
    cell (analyze_dupont_model (FinancialRatioAnalyzer.init income_data balance_data))
        "ROE_Actual_%" 3 = some (Val.num (22/10 / 160 * 100)) :=
  dupont_identity (FinancialRatioAnalyzer.init income_data balance_data) 3
    (5731/10) (22/10) 980 160
    (by simp [FinancialRatioAnalyzer.init, income_data])
    (by simp [FinancialRatioAnalyzer.init, income_data])
    (by simp [FinancialRatioAnalyzer.init, balance_data])
    (by simp [FinancialRatioAnalyzer.init, balance_data])
    (by norm_num) (by norm_num) (by norm_num)

theorem Val.div_nan (v : Val) : Val.div v Val.nan = Val.nan := by
  cases v <;> rfl

theorem Val.div_num_num (a b : ℚ) (hb : b ≠ 0) :
    Val.div (Val.num a) (Val.num b) = Val.num (a / b) := by
  simp [Val.div, hb]

theorem ffillFrom_length (p : Val) (xs : List Val) : (ffillFrom p xs).length = xs.length := by
  induction xs generalizing p with
  | nil => rfl
  | cons v rest ih => simp [ffillFrom, ih]

theorem ffill_length (xs : List Val) : (ffill xs).length = xs.length :=
  ffillFrom_length _ xs

theorem ffillFrom_of_no_nan (p : Val) (xs : List Val)
    (h : ∀ v ∈ xs, v.isNan = false) : ffillFrom p xs = xs := by
  induction xs generalizing p with
  | nil => rfl
  | cons v rest ih =>
      have hv : v.isNan = false := h v (by simp)
      simp [ffillFrom, hv, ih _ fun w hw => h w (by simp [hw])]

theorem colDiv_length (xs ys : List ℚ) :
    (colDiv xs ys).length = max xs.length ys.length := by
  simp [colDiv, alignBin, qcol]

theorem colDiv_no_nan (xs ys : List ℚ) (hlen : xs.length = ys.length)
    (hys : ∀ y ∈ ys, y ≠ 0) : ∀ v ∈ colDiv xs ys, v.isNan = false := by
  intro v hv
  simp only [colDiv, alignBin, List.mem_map, List.mem_range] at hv
  obtain ⟨i, hi, hv⟩ := hv
  have hix : i < xs.length := by
    simp [qcol] at hi
    omega
  have hiy : i < ys.length := by omega
  have hx : (qcol xs).getD i Val.nan = Val.num (xs.getD i 0) := by
    rw [getD_eq_of_getElem?]
    rw [qcol_getElem?, List.getElem?_eq_getElem hix]
    simp [List.getD_eq_getElem?_getD, List.getElem?_eq_getElem hix]
  have hy : (qcol ys).getD i Val.nan = Val.num (ys.getD i 0) := by
    rw [getD_eq_of_getElem?]
    rw [qcol_getElem?, List.getElem?_eq_getElem hiy]
    simp [List.getD_eq_getElem?_getD, List.getElem?_eq_getElem hiy]
  have hy0 : ys.getD i 0 ≠ 0 := by
    apply hys
    rw [List.getD_eq_getElem?_getD, List.getElem?_eq_getElem hiy]
    exact List.getElem_mem hiy
  rw [hx, hy] at hv
  rw [← hv, Val.div_num_num _ _ hy0]
  rfl

theorem pct_change_getElem? (xs : List Val) (i : ℕ) (hi : i < (ffill xs).length) :
    (pct_change xs)[i]? = some (Val.sub
      (Val.div ((ffill xs).getD i Val.nan)
        (if i = 0 then Val.nan else (ffill xs).getD (i - 1) Val.nan))
      (Val.num 1)) := by
  simp [pct_change, List.getElem?_range, hi]

/-- C7: in the table returned by `calculate_efficiency_ratios`,
`Asset_Turnover_Change_%` is missing (`nan`) for the first year and for every
later year equals the percent change of Asset_Turnover from the prior year,
(current/previous - 1)*100. (Hypotheses: the two aligned input columns have
the same length and Total_Assets is never zero, so the Asset_Turnover column
has no missing values and the pad-fill of `pct_change` is the identity.) -/
theorem asset_turnover_change_formula (s : FinancialRatioAnalyzer)
    (hlen : s.income.Revenue.length = s.balance.Total_Assets.length)
    (hta : ∀ y ∈ s.balance.Total_Assets, y ≠ 0) :
    (0 < s.income.Revenue.length →
      cell (calculate_efficiency_ratios s).2 "Asset_Turnover_Change_%" 0 =
        some Val.nan) ∧
    (∀ i a b c d, s.income.Revenue[i]? = some a →
      s.balance.Total_Assets[i]? = some b →
      s.income.Revenue[i + 1]? = some c →
      s.balance.Total_Assets[i + 1]? = some d →
      a ≠ 0 →
      cell (calculate_efficiency_ratios s).2 "Asset_Turnover_Change_%" (i + 1) =
        some (Val.num ((c / d / (a / b) - 1) * 100))) := by
  have hlook : (calculate_efficiency_ratios s).2.cols.lookup "Asset_Turnover_Change_%" =
      some (scale100 (pct_change (colDiv s.income.Revenue s.balance.Total_Assets))) := rfl
  have hff : ffill (colDiv s.income.Revenue s.balance.Total_Assets) =
      colDiv s.income.Revenue s.balance.Total_Assets :=
    ffillFrom_of_no_nan _ _ (colDiv_no_nan _ _ hlen hta)
  have hlength : (colDiv s.income.Revenue s.balance.Total_Assets).length =
      s.income.Revenue.length := by
    rw [colDiv_length]
    omega
  constructor
  · intro hpos
    have h0 : (pct_change (colDiv s.income.Revenue s.balance.Total_Assets))[0]? =
        some Val.nan := by
      rw [pct_change_getElem? _ 0 (by rw [hff]; omega)]
      simp [Val.div_nan, Val.sub]
    simp only [cell, hlook, Option.some_bind, scale100_getElem?, h0]
    rfl
  · intro i a b c d ha hb hc hd ha0
    have hb0 : b ≠ 0 := hta b (by
      have := List.getElem?_eq_some.mp hb
      obtain ⟨hlt, heq⟩ := this
      rw [← heq]
      exact List.getElem_mem hlt)
    have hd0 : d ≠ 0 := hta d (by
      have := List.getElem?_eq_some.mp hd
      obtain ⟨hlt, heq⟩ := this
      rw [← heq]
      exact List.getElem_mem hlt)
    have hab : a / b ≠ 0 := div_ne_zero ha0 hb0
    have hcur : (colDiv s.income.Revenue s.balance.Total_Assets).getD (i + 1) Val.nan =
        Val.num (c / d) :=
      getD_eq_of_getElem? _ _ _ (colDiv_getElem? _ _ _ _ _ hc hd hd0)
    have hprev : (colDiv s.income.Revenue s.balance.Total_Assets).getD i Val.nan =
        Val.num (a / b) :=
      getD_eq_of_getElem? _ _ _ (colDiv_getElem? _ _ _ _ _ ha hb hb0)
    have hi1 : i + 1 < (ffill (colDiv s.income.Revenue s.balance.Total_Assets)).length := by
      rw [hff, hlength]
      obtain ⟨hlt, -⟩ := List.getElem?_eq_some.mp hc
      omega
    have hstep : (pct_change (colDiv s.income.Revenue s.balance.Total_Assets))[i + 1]? =
        some (Val.num (c / d / (a / b) - 1)) := by
      rw [pct_change_getElem? _ (i + 1) hi1]
      rw [hff]
      simp only [Nat.add_sub_cancel, hcur, hprev]
      simp [Val.div, Val.sub, hab]
    simp only [cell, hlook, Option.some_bind, scale100_getElem?, hstep]
    simp [Val.mul]

/-- C7 witness: the sample data, first and second rows. -/
theorem asset_turnover_change_formula_witness :
    cell (calculate_efficiency_ratios
        (FinancialRatioAnalyzer.init income_data balance_data)).2
      "Asset_Turnover_Change_%" 0 = some Val.nan ∧
    cell (calculate_efficiency_ratios
        (FinancialRatioAnalyzer.init income_data balance_data)).2
      "Asset_Turnover_Change_%" 1 =
      some (Val.num ((8266/10 / 1320 / (7849/10 / 1250) - 1) * 100)) := by
  have h := asset_turnover_change_formula
    (FinancialRatioAnalyzer.init income_data balance_data)
    (by simp [FinancialRatioAnalyzer.init, income_data, balance_data])
    (by
      intro y hy
      simp [FinancialRatioAnalyzer.init, balance_data] at hy
      rcases hy with h | h | h | h <;> rw [h] <;> norm_num)
  refine ⟨h.1 (by simp [FinancialRatioAnalyzer.init, income_data]), ?_⟩
  exact h.2 0 (7849/10) 1250 (8266/10) 1320
    (by simp [FinancialRatioAnalyzer.init, income_data])
    (by simp [FinancialRatioAnalyzer.init, balance_data])
    (by simp [FinancialRatioAnalyzer.init, income_data])
    (by simp [FinancialRatioAnalyzer.init, balance_data])
    (by norm_num)

theorem dropna_qcol (xs : List ℚ) : dropna (qcol xs) = qcol xs := by
  induction xs with
  | nil => rfl
  | cons q rest ih => simp [dropna, qcol, Val.isNan]

/-- A state whose stored ratios hold three two-point series: [100, 130]
(+30 percent), [100, 95] (-5 percent) and [100, 85] (-15 percent). -/
def trend_demo_analyzer : FinancialRatioAnalyzer :=
  { income := income_data
    balance := balance_data
    ratios := [("r", { Year := []
                       cols := [("a", qcol [100, 130]),
                                ("b", qcol [100, 95]),
                                ("c", qcol [100, 85])] })] }

theorem classifySeries_qcol (f l : ℚ) (mid : List ℚ) (hf : f ≠ 0) :
    classifySeries (qcol (f :: mid ++ [l])) =
      some (if 1/10 < (l - f) / |f| then TrendClass.improving
            else if (l - f) / |f| < -(1/10) then TrendClass.declining
            else TrendClass.stable) := by
  have habs : |f| ≠ 0 := abs_ne_zero.mpr hf
  have hlen : 1 < (qcol (f :: mid ++ [l])).length := by
    simp [qcol]
  have hhead : (qcol (f :: mid ++ [l])).headD Val.nan = Val.num f := by
    simp [qcol]
  have hlast : (qcol (f :: mid ++ [l])).getLastD Val.nan = Val.num l := by
    have : qcol (f :: mid ++ [l]) = qcol (f :: mid) ++ [Val.num l] := by
      simp [qcol]
    rw [this, List.getLastD_concat]
  unfold classifySeries
  rw [dropna_qcol]
  simp only [hlen, if_true, hhead, hlast]
  simp [hf, habs, Val.sub, Val.abs, Val.div, Val.lt]

/-- C3: `identify_ratio_trends` classifies each stored series with more than
one non-missing value by the relative change between last and first value,
(last - first)/|first| when the first value is non-zero and 0 when it is
exactly zero, as improving above +0.10, declining below -0.10, and stable
otherwise; concretely [100, 130] is improving, [100, 95] is stable and
[100, 85] is declining. -/
theorem trend_classification_rule :
    (∀ (f l : ℚ) (mid : List ℚ), f ≠ 0 →
      classifySeries (qcol (f :: mid ++ [l])) =
        some (if 1/10 < (l - f) / |f| then TrendClass.improving
              else if (l - f) / |f| < -(1/10) then TrendClass.declining
              else TrendClass.stable)) ∧
    (∀ (l : ℚ) (mid : List ℚ),
      classifySeries (qcol ((0 : ℚ) :: mid ++ [l])) = some TrendClass.stable) ∧
    identify_ratio_trends trend_demo_analyzer = (["r.a"], ["r.c"], ["r.b"]) := by
  have hzero : ∀ (l : ℚ) (mid : List ℚ),
      classifySeries (qcol ((0 : ℚ) :: mid ++ [l])) = some TrendClass.stable := by
    intro l mid
    have hlen : 1 < (qcol ((0 : ℚ) :: mid ++ [l])).length := by
      simp [qcol]
    have hhead : (qcol ((0 : ℚ) :: mid ++ [l])).headD Val.nan = Val.num 0 := by
      simp [qcol]
    unfold classifySeries
    rw [dropna_qcol, if_pos hlen, hhead]
    norm_num [Val.lt]
  refine ⟨classifySeries_qcol, hzero, ?_⟩
  have ha : classifySeries (qcol [100, 130]) = some TrendClass.improving := by
    have h := classifySeries_qcol 100 130 [] (by norm_num)
    simp only [List.cons_append, List.nil_append] at h
    rw [h]
    norm_num
  have hb : classifySeries (qcol [100, 95]) = some TrendClass.stable := by
    have h := classifySeries_qcol 100 95 [] (by norm_num)
    simp only [List.cons_append, List.nil_append] at h
    rw [h]
    norm_num
  have hc : classifySeries (qcol [100, 85]) = some TrendClass.declining := by
    have h := classifySeries_qcol 100 85 [] (by norm_num)
    simp only [List.cons_append, List.nil_append] at h
    rw [h]
    norm_num
  simp [identify_ratio_trends, classifyAll, trend_demo_analyzer, ha, hb, hc]

/-- C3 witness: the general rule applied to the series [100, 130]. -/
theorem trend_classification_rule_witness :
    classifySeries (qcol ((100 : ℚ) :: [] ++ [130])) =
      some (if 1/10 < ((130 : ℚ) - 100) / |(100 : ℚ)| then TrendClass.improving
            else if ((130 : ℚ) - 100) / |(100 : ℚ)| < -(1/10) then TrendClass.declining
            else TrendClass.stable) :=
  trend_classification_rule.1 100 130 [] (by norm_num)

/-- The labels the trend loop is allowed to classify: every stored table,
every non-Year column whose series keeps more than one value after `dropna`. -/
def eligibleLabels (rs : List (String × RatioTable)) : List String :=
  rs.flatMap fun ct =>
    ct.2.cols.filterMap fun cv =>
      if 1 < (dropna cv.2).length then some (ct.1 ++ "." ++ cv.1) else none

theorem classify_label_eq (cat : String) (cv : String × List Val) :
    (classifySeries cv.2).map (fun _ => cat ++ "." ++ cv.1) =
      (if 1 < (dropna cv.2).length then some (cat ++ "." ++ cv.1) else none) := by
  simp only [classifySeries]
  split <;> simp

theorem classifyAll_labels (rs : List (String × RatioTable)) :
    (classifyAll rs).map Prod.fst = eligibleLabels rs := by
  induction rs with
  | nil => rfl
  | cons ct rest ih =>
      simp only [classifyAll, eligibleLabels, List.flatMap_cons, List.map_append] at ih ⊢
      rw [ih]
      congr 1
      rw [List.map_filterMap]
      apply List.filterMap_congr
      intro cv _
      simp only [Option.map_map]
      exact classify_label_eq ct.1 cv

theorem count_filterMap_classes (l : List (String × TrendClass)) (lab : String) :
    (l.filterMap fun lc => if lc.2 = TrendClass.improving then some lc.1 else none).count lab +
    (l.filterMap fun lc => if lc.2 = TrendClass.declining then some lc.1 else none).count lab +
    (l.filterMap fun lc => if lc.2 = TrendClass.stable then some lc.1 else none).count lab =
    (l.map Prod.fst).count lab := by
  induction l with
  | nil => rfl
  | cons hd tl ih =>
      obtain ⟨name, c⟩ := hd
      cases c <;> simp only [List.filterMap_cons, List.map_cons] <;>
        simp [List.count_cons] <;> omega

/-- A state with one stored table holding an eligible series ([1, 2]) and an
ineligible one-point series ([7]). -/
def partition_demo_analyzer : FinancialRatioAnalyzer :=
  { income := income_data
    balance := balance_data
    ratios := [("p", { Year := []
                       cols := [("x", qcol [1, 2]), ("y", qcol [7])] })] }

/-- C10: the three lists returned by `identify_ratio_trends` partition the
eligible series: counted with multiplicity they exactly exhaust the labels of
the non-Year columns with more than one non-missing value, and when those
labels are distinct every eligible label lands in exactly one of the three
lists while every other string is in none of them. -/
theorem trend_lists_partition (s : FinancialRatioAnalyzer) :
    (∀ lab : String,
      (identify_ratio_trends s).1.count lab +
        (identify_ratio_trends s).2.1.count lab +
        (identify_ratio_trends s).2.2.count lab =
        (eligibleLabels s.ratios).count lab) ∧
    ((eligibleLabels s.ratios).Nodup →
      ∀ lab : String,
        (lab ∈ eligibleLabels s.ratios →
          ((lab ∈ (identify_ratio_trends s).1 ∧ lab ∉ (identify_ratio_trends s).2.1 ∧
              lab ∉ (identify_ratio_trends s).2.2) ∨
           (lab ∉ (identify_ratio_trends s).1 ∧ lab ∈ (identify_ratio_trends s).2.1 ∧
              lab ∉ (identify_ratio_trends s).2.2) ∨
           (lab ∉ (identify_ratio_trends s).1 ∧ lab ∉ (identify_ratio_trends s).2.1 ∧
              lab ∈ (identify_ratio_trends s).2.2))) ∧
        (lab ∉ eligibleLabels s.ratios →
          lab ∉ (identify_ratio_trends s).1 ∧ lab ∉ (identify_ratio_trends s).2.1 ∧
            lab ∉ (identify_ratio_trends s).2.2)) := by
  have hcount : ∀ lab : String,
      (identify_ratio_trends s).1.count lab +
        (identify_ratio_trends s).2.1.count lab +
        (identify_ratio_trends s).2.2.count lab =
        (eligibleLabels s.ratios).count lab := by
    intro lab
    have h := count_filterMap_classes (classifyAll s.ratios) lab
    rw [classifyAll_labels] at h
    exact h
  refine ⟨hcount, fun hnd lab => ⟨fun hmem => ?_, fun hnmem => ?_⟩⟩
  · have h1 : (eligibleLabels s.ratios).count lab ≤ 1 :=
      List.nodup_iff_count_le_one.mp hnd lab
    have h2 : 0 < (eligibleLabels s.ratios).count lab := List.count_pos_iff.mpr hmem
    have h3 := hcount lab
    have hcases : ((identify_ratio_trends s).1.count lab = 1 ∧
        (identify_ratio_trends s).2.1.count lab = 0 ∧
        (identify_ratio_trends s).2.2.count lab = 0) ∨
        ((identify_ratio_trends s).1.count lab = 0 ∧
        (identify_ratio_trends s).2.1.count lab = 1 ∧
        (identify_ratio_trends s).2.2.count lab = 0) ∨
        ((identify_ratio_trends s).1.count lab = 0 ∧
        (identify_ratio_trends s).2.1.count lab = 0 ∧
        (identify_ratio_trends s).2.2.count lab = 1) := by omega
    rcases hcases with ⟨ha, hb, hc⟩ | ⟨ha, hb, hc⟩ | ⟨ha, hb, hc⟩
    · exact Or.inl ⟨List.count_pos_iff.mp (by omega),
        List.count_eq_zero.mp hb, List.count_eq_zero.mp hc⟩
    · exact Or.inr (Or.inl ⟨List.count_eq_zero.mp ha,
        List.count_pos_iff.mp (by omega), List.count_eq_zero.mp hc⟩)
    · exact Or.inr (Or.inr ⟨List.count_eq_zero.mp ha,
        List.count_eq_zero.mp hb, List.count_pos_iff.mp (by omega)⟩)
  · have h0 : (eligibleLabels s.ratios).count lab = 0 := List.count_eq_zero.mpr hnmem
    have h3 := hcount lab
    exact ⟨List.count_eq_zero.mp (by omega), List.count_eq_zero.mp (by omega),
      List.count_eq_zero.mp (by omega)⟩

/-- C10 witness: the demo state, whose single eligible label is p.x. -/
theorem trend_lists_partition_witness :
    (eligibleLabels partition_demo_analyzer.ratios).Nodup ∧
    "p.x" ∈ eligibleLabels partition_demo_analyzer.ratios ∧
    (("p.x" ∈ (identify_ratio_trends partition_demo_analyzer).1 ∧
        "p.x" ∉ (identify_ratio_trends partition_demo_analyzer).2.1 ∧
        "p.x" ∉ (identify_ratio_trends partition_demo_analyzer).2.2) ∨
     ("p.x" ∉ (identify_ratio_trends partition_demo_analyzer).1 ∧
        "p.x" ∈ (identify_ratio_trends partition_demo_analyzer).2.1 ∧
        "p.x" ∉ (identify_ratio_trends partition_demo_analyzer).2.2) ∨
     ("p.x" ∉ (identify_ratio_trends partition_demo_analyzer).1 ∧
        "p.x" ∉ (identify_ratio_trends partition_demo_analyzer).2.1 ∧
        "p.x" ∈ (identify_ratio_trends partition_demo_analyzer).2.2)) := by
  have hnd : (eligibleLabels partition_demo_analyzer.ratios).Nodup := by
    simp [eligibleLabels, partition_demo_analyzer, qcol, dropna, Val.isNan,
      List.filterMap_cons]
  have hmem : "p.x" ∈ eligibleLabels partition_demo_analyzer.ratios := by
    simp [eligibleLabels, partition_demo_analyzer, qcol, dropna, Val.isNan,
      List.filterMap_cons]
  exact ⟨hnd, hmem, ((trend_lists_partition partition_demo_analyzer).2 hnd "p.x").1 hmem⟩

/-- C9: an empty benchmark mapping is replaced by the built-in UK-retail
defaults (Gross_Margin_% 35.0, EBIT_Margin_% 5.0, ROE_% 12.0,
Current_Ratio 1.5, Debt_to_Equity 1.0, Asset_Turnover 1.2): calling
`benchmark_against_industry` with an empty mapping gives exactly the result
of calling it with those defaults, not an empty comparison or a failure. -/
theorem benchmark_default_mapping (s : FinancialRatioAnalyzer) :
    benchmark_against_industry s [] =
      benchmark_against_industry s
        [("Gross_Margin_%", 35), ("EBIT_Margin_%", 5), ("ROE_%", 12),
         ("Current_Ratio", 3/2), ("Debt_to_Equity", 1), ("Asset_Turnover", 6/5)] ∧
    defaultIndustryBenchmarks =
      [("Gross_Margin_%", 35), ("EBIT_Margin_%", 5), ("ROE_%", 12),
       ("Current_Ratio", 3/2), ("Debt_to_Equity", 1), ("Asset_Turnover", 6/5)] :=
  ⟨rfl, rfl⟩

/-- C6: for every benchmark entry whose key occurs in the summary table,
`benchmark_against_industry` emits a difference column actual - benchmark and
a label column that is Above exactly when the difference is strictly
positive and Below otherwise (a tie yields Below). -/
theorem benchmark_above_below (s : FinancialRatioAnalyzer)
    (benchmarks : List (String × ℚ)) (m : String) (b : ℚ)
    (summary : RatioTable) (actual : List Val)
    (hmem : (m, b) ∈ benchmarks)
    (hsum : generate_ratio_summary s = some summary)
    (hact : summary.cols.lookup m = some actual) :
    ∃ t : BenchmarkTable,
      benchmark_against_industry s benchmarks = some t ∧
      (m ++ "_vs_Industry",
        BenchCol.nums (actual.map fun v => Val.sub v (Val.num b))) ∈ t.cols ∧
      (m ++ "_Performance",
        BenchCol.labels ((actual.map fun v => Val.sub v (Val.num b)).map fun x =>
          if Val.lt (Val.num 0) x then "Above" else "Below")) ∈ t.cols ∧
      (∀ q : ℚ, 0 < q →
        (if Val.lt (Val.num 0) (Val.num q) then "Above" else "Below") = "Above") ∧
      (∀ q : ℚ, q ≤ 0 →
        (if Val.lt (Val.num 0) (Val.num q) then "Above" else "Below") = "Below") := by
  have hne : benchmarks.isEmpty = false := by
    cases benchmarks with
    | nil => cases hmem
    | cons hd tl => rfl
  refine ⟨{ Year := summary.Year
            cols := benchmarks.flatMap fun mb =>
              match summary.cols.lookup mb.1 with
              | some act =>
                  [(mb.1 ++ "_vs_Industry",
                    BenchCol.nums (act.map fun v => Val.sub v (Val.num mb.2))),
                   (mb.1 ++ "_Performance",
                    BenchCol.labels ((act.map fun v => Val.sub v (Val.num mb.2)).map fun x =>
                      if Val.lt (Val.num 0) x then "Above" else "Below"))]
              | none => [] }, ?_, ?_, ?_, ?_, ?_⟩
  · simp only [benchmark_against_industry, hne, Bool.false_eq_true, if_false, hsum,
      Option.map_some']
  · apply List.mem_flatMap.mpr
    exact ⟨(m, b), hmem, by simp [hact]⟩
  · apply List.mem_flatMap.mpr
    exact ⟨(m, b), hmem, by simp [hact]⟩
  · intro q hq
    simp [Val.lt, hq]
  · intro q hq
    have hnlt : ¬ (0 < q) := not_lt.mpr hq
    simp [Val.lt, hnlt]

/-- The state of the demonstration pipeline after the four ratio
computations. -/
def pipeline_analyzer : FinancialRatioAnalyzer :=
  (calculate_efficiency_ratios
    (calculate_leverage_ratios
      (calculate_liquidity_ratios
        (calculate_profitability_ratios
          (FinancialRatioAnalyzer.init income_data balance_data)).1).1).1).1

/-- The summary table of the demonstration pipeline. -/
def pipeline_summary : RatioTable :=
  (generate_ratio_summary pipeline_analyzer).getD { Year := [], cols := [] }

/-- The ROE_% column of the demonstration pipeline summary. -/
def pipeline_roe_col : List Val :=
  (pipeline_summary.cols.lookup "ROE_%").getD []

/-- C6 witness: benchmarking the pipeline state against ROE_% of 12. -/
theorem benchmark_above_below_witness :
    ∃ t : BenchmarkTable,
      benchmark_against_industry pipeline_analyzer [("ROE_%", 12)] = some t ∧
      ("ROE_%" ++ "_vs_Industry",
        BenchCol.nums (pipeline_roe_col.map fun v => Val.sub v (Val.num 12))) ∈ t.cols ∧
      ("ROE_%" ++ "_Performance",
        BenchCol.labels ((pipeline_roe_col.map fun v => Val.sub v (Val.num 12)).map fun x =>
          if Val.lt (Val.num 0) x then "Above" else "Below")) ∈ t.cols ∧
      (∀ q : ℚ, 0 < q →
        (if Val.lt (Val.num 0) (Val.num q) then "Above" else "Below") = "Above") ∧
      (∀ q : ℚ, q ≤ 0 →
        (if Val.lt (Val.num 0) (Val.num q) then "Above" else "Below") = "Below") :=
  benchmark_above_below pipeline_analyzer [("ROE_%", 12)] "ROE_%" 12
    pipeline_summary pipeline_roe_col (by simp) rfl rfl

/-- The sample balance sheet with Shareholders_Equity zeroed for 2015. -/
def zero_equity_balance : BalanceSheet :=
  { balance_data with Shareholders_Equity := [0, 300, 280, 160] }

/-- The analyzer over the sample income data and the zero-equity balance. -/
def zero_equity_analyzer : FinancialRatioAnalyzer :=
  FinancialRatioAnalyzer.init income_data zero_equity_balance

/-- C4 counterexample: with Shareholders_Equity = 0 and Net_Income = 2.5 the
run completes and the other cells are computed, but the ROE_% cell is
positive infinity, not a not-a-number value. -/
theorem roe_zero_denominator_is_infinite :
    cell (calculate_profitability_ratios zero_equity_analyzer).2 "ROE_%" 0 =
      some Val.inf ∧
    Val.inf ≠ Val.nan ∧
    cell (calculate_profitability_ratios zero_equity_analyzer).2 "Gross_Margin_%" 0 =
      some (Val.num (4602/10 / (7849/10) * 100)) := by
  have hroe : (calculate_profitability_ratios zero_equity_analyzer).2.cols.lookup "ROE_%" =
      some (scale100 (colDiv income_data.Net_Income zero_equity_balance.Shareholders_Equity)) :=
    rfl
  have hgm : (calculate_profitability_ratios zero_equity_analyzer).2.cols.lookup
      "Gross_Margin_%" =
      some (scale100 (colDiv income_data.Gross_Profit income_data.Revenue)) := rfl
  have hcol : (colDiv income_data.Net_Income zero_equity_balance.Shareholders_Equity)[0]? =
      some (Val.div (Val.num (25/10)) (Val.num 0)) := by
    apply alignBin_getElem?_of
    · simp [qcol_getElem?, income_data]
    · simp [qcol_getElem?, zero_equity_balance, balance_data]
  refine ⟨?_, by simp, ?_⟩
  · simp only [cell, hroe, Option.some_bind, scale100_getElem?, hcol, Option.map_some']
    norm_num [Val.div, Val.mul]
  · simp only [cell, hgm, Option.some_bind]
    rw [scale100_colDiv_getElem? _ _ 0 (4602/10) (7849/10)
      (by simp [income_data]) (by simp [income_data]) (by norm_num)]

/-- C4 amended: a zero denominator never crashes the run and every other cell
is still computed, but the affected cell is the IEEE value numpy produces:
positive infinity for a positive numerator, negative infinity for a negative
one, and not-a-number only when the numerator is zero as well. -/
theorem zero_denominator_cell_amended (s : FinancialRatioAnalyzer) (i : ℕ) (ni : ℚ)
    (hni : s.income.Net_Income[i]? = some ni)
    (hse : s.balance.Shareholders_Equity[i]? = some (0 : ℚ)) :
    cell (calculate_profitability_ratios s).2 "ROE_%" i =
      some (if 0 < ni then Val.inf else if ni < 0 then Val.neginf else Val.nan) ∧
    (∀ rev gp : ℚ, s.income.Revenue[i]? = some rev →
      s.income.Gross_Profit[i]? = some gp → rev ≠ 0 →
      cell (calculate_profitability_ratios s).2 "Gross_Margin_%" i =
        some (Val.num (gp / rev * 100))) := by
  have hroe : (calculate_profitability_ratios s).2.cols.lookup "ROE_%" =
      some (scale100 (colDiv s.income.Net_Income s.balance.Shareholders_Equity)) := rfl
  have hgm : (calculate_profitability_ratios s).2.cols.lookup "Gross_Margin_%" =
      some (scale100 (colDiv s.income.Gross_Profit s.income.Revenue)) := rfl
  constructor
  · have hcol : (colDiv s.income.Net_Income s.balance.Shareholders_Equity)[i]? =
        some (Val.div (Val.num ni) (Val.num 0)) := by
      apply alignBin_getElem?_of
      · simp [qcol_getElem?, hni]
      · simp [qcol_getElem?, hse]
    simp only [cell, hroe, Option.some_bind, scale100_getElem?, hcol, Option.map_some']
    by_cases h1 : 0 < ni
    · norm_num [Val.div, Val.mul, h1]
    · by_cases h2 : ni < 0
      · norm_num [Val.div, Val.mul, h1, h2]
      · norm_num [Val.div, Val.mul, h1, h2]
  · intro rev gp hrev hgp hrev0
    simp only [cell, hgm, Option.some_bind]
    rw [scale100_colDiv_getElem? _ _ i gp rev hgp hrev hrev0]

/-- C4 witness: the zero-equity state, 2015 row. -/
theorem zero_denominator_cell_amended_witness :
    cell (calculate_profitability_ratios zero_equity_analyzer).2 "ROE_%" 0 =
      some (if (0 : ℚ) < 25/10 then Val.inf
            else if (25/10 : ℚ) < 0 then Val.neginf else Val.nan) ∧
    cell (calculate_profitability_ratios zero_equity_analyzer).2 "Gross_Margin_%" 0 =
      some (Val.num (4602/10 / (7849/10) * 100)) := by
  have h := zero_denominator_cell_amended zero_equity_analyzer 0 (25/10)
    (by simp [zero_equity_analyzer, FinancialRatioAnalyzer.init, income_data])
    (by simp [zero_equity_analyzer, FinancialRatioAnalyzer.init, zero_equity_balance,
      balance_data])
  exact ⟨h.1, h.2 (7849/10) (4602/10)
    (by simp [zero_equity_analyzer, FinancialRatioAnalyzer.init, income_data])
    (by simp [zero_equity_analyzer, FinancialRatioAnalyzer.init, income_data])
    (by norm_num)⟩

/-- A balance sheet holding only three years, against the four-year income
statement of the sample data. -/
def three_year_balance : BalanceSheet :=
  { Year := [2015, 2016, 2017]
    Total_Assets := [1250, 1320, 1290]
    Current_Assets := [450, 480, 460]
    Fixed_Assets := [800, 840, 830]
    Total_Liabilities := [950, 1020, 1010]
    Current_Liabilities := [380, 410, 395]
    Long_Term_Debt := [570, 610, 615]
    Shareholders_Equity := [300, 300, 280] }

/-- The analyzer over mismatched year counts (4 income years, 3 balance years). -/
def mismatched_analyzer : FinancialRatioAnalyzer :=
  FinancialRatioAnalyzer.init income_data three_year_balance

/-- C5 counterexample: with a 4-year income statement and a 3-year balance
sheet the constructor succeeds without any error, the ratios are computed,
and a full profitability table is produced: its ROA_% row for 2015 is the
computed ratio and its unmatched 2018 row is `nan`. -/
theorem mismatched_input_no_failfast :
    mismatched_analyzer.income.Year.length = 4 ∧
    mismatched_analyzer.balance.Year.length = 3 ∧
    mismatched_analyzer.ratios = [] ∧
    cell (calculate_profitability_ratios mismatched_analyzer).2 "ROA_%" 0 =
      some (Val.num (25/10 / 1250 * 100)) ∧
    cell (calculate_profitability_ratios mismatched_analyzer).2 "ROA_%" 3 =
      some Val.nan ∧
    (calculate_profitability_ratios mismatched_analyzer).2.Year =
      [2015, 2016, 2017, 2018] := by
  have hroa : (calculate_profitability_ratios mismatched_analyzer).2.cols.lookup "ROA_%" =
      some (scale100 (colDiv income_data.Net_Income three_year_balance.Total_Assets)) := rfl
  refine ⟨rfl, rfl, rfl, ?_, ?_, rfl⟩
  · simp only [cell, hroa, Option.some_bind]
    rw [scale100_colDiv_getElem? _ _ 0 (25/10) 1250
      (by simp [income_data]) (by simp [three_year_balance]) (by norm_num)]
  · have hcol : (colDiv income_data.Net_Income three_year_balance.Total_Assets)[3]? =
        some Val.nan := by
      rw [colDiv, alignBin_getElem? _ _ _ 3 (by simp [qcol, income_data, three_year_balance])]
      rw [getD_eq_of_getElem? _ _ (Val.num (22/10))
        (by simp [qcol_getElem?, income_data])]
      rw [show (qcol three_year_balance.Total_Assets).getD 3 Val.nan = Val.nan from by
        simp [qcol, three_year_balance, List.getD]]
      rfl
    simp only [cell, hroa, Option.some_bind, scale100_getElem?, hcol, Option.map_some']
    rfl

/-- C5 amended: `__init__` performs no validation and never fails: for any
two input tables, mismatched or not, it stores them unchanged with an empty
ratios dict, and the ratio computation then proceeds by positional alignment,
producing `nan` for every row missing from the shorter table instead of
raising an error. -/
theorem init_stores_without_validation (inc : IncomeStatement) (bal : BalanceSheet) (i : ℕ)
    (hmiss : bal.Total_Assets.length ≤ i) (hlt : i < inc.Net_Income.length) :
    (FinancialRatioAnalyzer.init inc bal).income = inc ∧
    (FinancialRatioAnalyzer.init inc bal).balance = bal ∧
    (FinancialRatioAnalyzer.init inc bal).ratios = [] ∧
    cell (calculate_profitability_ratios (FinancialRatioAnalyzer.init inc bal)).2
      "ROA_%" i = some Val.nan := by
  refine ⟨rfl, rfl, rfl, ?_⟩
  have hroa : (calculate_profitability_ratios (FinancialRatioAnalyzer.init inc bal)).2.cols.lookup
      "ROA_%" = some (scale100 (colDiv inc.Net_Income bal.Total_Assets)) := rfl
  have hta : (qcol bal.Total_Assets).getD i Val.nan = Val.nan := by
    rw [List.getD_eq_getElem?_getD, List.getElem?_eq_none (by simp [qcol]; omega)]
    rfl
  have hni : (qcol inc.Net_Income).getD i Val.nan =
      Val.num (inc.Net_Income.getD i 0) := by
    rw [List.getD_eq_getElem?_getD, qcol_getElem?, List.getElem?_eq_getElem hlt]
    simp [List.getD_eq_getElem?_getD, List.getElem?_eq_getElem hlt]
  have hcol : (colDiv inc.Net_Income bal.Total_Assets)[i]? = some Val.nan := by
    rw [colDiv, alignBin_getElem? _ _ _ i (by simp [qcol]; omega), hni, hta]
    rfl
  simp only [cell, hroa, Option.some_bind, scale100_getElem?, hcol, Option.map_some']
  rfl

/-- C5 witness: the mismatched sample pair, unmatched 2018 row. -/
theorem init_stores_without_validation_witness :
    (FinancialRatioAnalyzer.init income_data three_year_balance).income = income_data ∧
    (FinancialRatioAnalyzer.init income_data three_year_balance).balance =
      three_year_balance ∧
    (FinancialRatioAnalyzer.init income_data three_year_balance).ratios = [] ∧
    cell (calculate_profitability_ratios
        (FinancialRatioAnalyzer.init income_data three_year_balance)).2 "ROA_%" 3 =
      some Val.nan :=
  init_stores_without_validation income_data three_year_balance 3
    (by simp [three_year_balance]) (by simp [income_data])

/-- A one-column stored ratio table used to vary the ratios state. -/
def frame_demo_table : RatioTable :=
  { Year := [], cols := [("x", qcol [1, 2])] }

/-- The sample inputs with an empty ratios state. -/
def frame_empty_analyzer : FinancialRatioAnalyzer :=
  { income := income_data, balance := balance_data, ratios := [] }

/-- The same inputs with one stored ratio table. -/
def frame_filled_analyzer : FinancialRatioAnalyzer :=
  { income := income_data, balance := balance_data,
    ratios := [("profitability", frame_demo_table)] }

/-- C8 counterexample: two analyzer states with identical income and balance
tables but different `self.ratios` states give different
`identify_ratio_trends` results, so that operation does not depend only on
the two input tables. -/
theorem trends_depend_on_ratios_state :
    frame_empty_analyzer.income = frame_filled_analyzer.income ∧
    frame_empty_analyzer.balance = frame_filled_analyzer.balance ∧
    identify_ratio_trends frame_empty_analyzer ≠
      identify_ratio_trends frame_filled_analyzer := by
  have hcl : classifySeries (qcol [1, 2]) = some TrendClass.improving := by
    have h := classifySeries_qcol 1 2 [] (by norm_num)
    simp only [List.cons_append, List.nil_append] at h
    rw [h]
    norm_num
  refine ⟨rfl, rfl, ?_⟩
  have h1 : identify_ratio_trends frame_empty_analyzer = ([], [], []) := rfl
  have h2 : identify_ratio_trends frame_filled_analyzer =
      (["profitability.x"], [], []) := by
    simp [identify_ratio_trends, classifyAll, frame_filled_analyzer, frame_demo_table, hcl]
  rw [h1, h2]
  simp

/-- C8 amended: no operation modifies the income or balance tables (the
calculate methods update only the ratios cache); the four calculate methods
and the DuPont decomposition are functions of the two input tables alone,
while `identify_ratio_trends` and `benchmark_against_industry` are functions
of the input tables together with the accumulated ratios state. -/
theorem operations_frame_amended :
    (∀ s : FinancialRatioAnalyzer,
      (calculate_profitability_ratios s).1.income = s.income ∧
      (calculate_profitability_ratios s).1.balance = s.balance ∧
      (calculate_liquidity_ratios s).1.income = s.income ∧
      (calculate_liquidity_ratios s).1.balance = s.balance ∧
      (calculate_leverage_ratios s).1.income = s.income ∧
      (calculate_leverage_ratios s).1.balance = s.balance ∧
      (calculate_efficiency_ratios s).1.income = s.income ∧
      (calculate_efficiency_ratios s).1.balance = s.balance) ∧
    (∀ s t : FinancialRatioAnalyzer, s.income = t.income → s.balance = t.balance →
      (calculate_profitability_ratios s).2 = (calculate_profitability_ratios t).2 ∧
      (calculate_liquidity_ratios s).2 = (calculate_liquidity_ratios t).2 ∧
      (calculate_leverage_ratios s).2 = (calculate_leverage_ratios t).2 ∧
      (calculate_efficiency_ratios s).2 = (calculate_efficiency_ratios t).2 ∧
      analyze_dupont_model s = analyze_dupont_model t) ∧
    (∀ s t : FinancialRatioAnalyzer, s.income = t.income → s.balance = t.balance →
      s.ratios = t.ratios →
      identify_ratio_trends s = identify_ratio_trends t ∧
      ∀ bm : List (String × ℚ),
        benchmark_against_industry s bm = benchmark_against_industry t bm) := by
  refine ⟨fun s => ⟨rfl, rfl, rfl, rfl, rfl, rfl, rfl, rfl⟩, ?_, ?_⟩
  · intro s t hi hb
    refine ⟨?_, ?_, ?_, ?_, ?_⟩ <;>
      simp only [calculate_profitability_ratios, calculate_liquidity_ratios,
        calculate_leverage_ratios, calculate_efficiency_ratios, analyze_dupont_model,
        hi, hb]
  · intro s t hi hb hr
    constructor
    · simp only [identify_ratio_trends, classifyAll, hr]
    · intro bm
      simp only [benchmark_against_industry, generate_ratio_summary, hi, hr]

/-- C8 witness: the frame conjuncts at the two concrete states. -/
theorem operations_frame_amended_witness :
    (calculate_profitability_ratios frame_empty_analyzer).1.income =
      frame_empty_analyzer.income ∧
    (calculate_profitability_ratios frame_empty_analyzer).2 =
      (calculate_profitability_ratios frame_filled_analyzer).2 ∧
    identify_ratio_trends frame_filled_analyzer =
      identify_ratio_trends frame_filled_analyzer :=
  ⟨(operations_frame_amended.1 frame_empty_analyzer).1,
   (operations_frame_amended.2.1 frame_empty_analyzer frame_filled_analyzer rfl rfl).1,
   (operations_frame_amended.2.2 frame_filled_analyzer frame_filled_analyzer rfl rfl rfl).1⟩
